import Mathlib

/-!
Verification of the extract-api crawler (src/unnamed/part_000, src/server.js).

The development shallowly embeds the crawl-and-localize engine: JavaScript
string and Node `path` primitives are modelled as structurally recursive
Lean functions over `List Char` (so every definition evaluates inside the
kernel), the platform capabilities (WHATWG URL parsing/resolution, HTTP
transport) are parameters of the crawl model, and the single-threaded
event-loop execution of `Promise.all` waves is sequentialized (faithful
because every check-and-insert on the shared sets is synchronous, with no
`await` between the membership test and the insertion).
-/

set_option autoImplicit false
set_option linter.unusedVariables false

namespace ExtractApi

/-! ## JavaScript string primitives -/

/-- Boolean prefix test on character lists. -/
def listIsPre : List Char → List Char → Bool
  | [], _ => true
  | _ :: _, [] => false
  | p :: ps, x :: xs => if p = x then listIsPre ps xs else false

/-- Boolean substring test on character lists. -/
def listIncludes (sub : List Char) : List Char → Bool
  | [] => sub.isEmpty
  | x :: xs => if listIsPre sub (x :: xs) then true else listIncludes sub xs

/-- JS `String.prototype.includes`: substring containment test. -/
def jsIncludes (s sub : String) : Bool :=
  listIncludes sub.data s.data

/-- JS `String.prototype.startsWith`. -/
def jsStartsWith (s pre : String) : Bool :=
  listIsPre pre.data s.data

/-- JS `String.prototype.endsWith`. -/
def jsEndsWith (s suf : String) : Bool :=
  listIsPre suf.data.reverse s.data.reverse

/-- Split a character list at every occurrence of one character
(`String.prototype.split` with a one-character separator). -/
def splitChar (c : Char) : List Char → List (List Char)
  | [] => [[]]
  | x :: xs =>
    let r := splitChar c xs
    if x = c then [] :: r
    else
      match r with
      | s :: ss => (x :: s) :: ss
      | [] => [[x]]

/-- Link normalization from src/unnamed/part_000 line 203:
`absoluteLink.split('#')[0].split('?')[0]` — drop everything from the first
`#`, then everything from the first `?`. -/
def jsNormalize (s : String) : String :=
  ⟨(splitChar '?' ((splitChar '#' s.data).headD [])).headD []⟩

/-- ASCII lowercasing of one character (what `toLowerCase` does on the
ASCII extension strings compared at line 265). -/
def charLower (c : Char) : Char :=
  if 65 ≤ c.toNat ∧ c.toNat ≤ 90 then Char.ofNat (c.toNat + 32) else c

/-- ASCII model of JS `String.prototype.toLowerCase`. -/
def strLower (s : String) : String :=
  ⟨s.data.map charLower⟩

/-- Value of a hexadecimal digit character, as accepted by JS percent-decoding. -/
def hexDigit (c : Char) : Option Nat :=
  if '0' ≤ c ∧ c ≤ '9' then some (c.toNat - 48)
  else if 'A' ≤ c ∧ c ≤ 'F' then some (c.toNat - 55)
  else if 'a' ≤ c ∧ c ≤ 'f' then some (c.toNat - 87)
  else none

/-- Byte-level model of JS `decodeURIComponent`: each `%XY` pair with hex
digits decodes to the character with code `16*X+Y`.  (Multi-byte UTF-8
sequences are decoded byte-by-byte, and malformed escapes — which a
WHATWG-produced pathname never contains — are left in place where JS would
throw `URIError`.) -/
def decodeBytes : List Char → List Char
  | [] => []
  | '%' :: a :: b :: rest =>
    match hexDigit a, hexDigit b with
    | some x, some y => Char.ofNat (16 * x + y) :: decodeBytes rest
    | _, _ => '%' :: decodeBytes (a :: b :: rest)
  | c :: rest => c :: decodeBytes rest

/-- String-level wrapper for `decodeBytes`. -/
def decodeURIComponentS (s : String) : String :=
  ⟨decodeBytes s.data⟩

/-- Characters that JS `encodeURI` leaves unescaped: alphanumerics and
`! # $ & ' ( ) * + , - . / : ; = ? @ _ ~`. -/
def isEncodeURISafe (c : Char) : Bool :=
  let n := c.toNat
  decide ((65 ≤ n ∧ n ≤ 90) ∨ (97 ≤ n ∧ n ≤ 122) ∨ (48 ≤ n ∧ n ≤ 57) ∨
    n ∈ [33, 35, 36, 38, 39, 40, 41, 42, 43, 44, 45, 46, 47, 58, 59, 61, 63, 64, 95, 126])

/-- Uppercase hex digit for a value below 16. -/
def hexDigitChar (n : Nat) : Char :=
  if n < 10 then Char.ofNat (48 + n) else Char.ofNat (55 + n)

/-- Percent-escape of one byte, uppercase hex as JS produces. -/
def percentByte (b : Nat) : List Char :=
  ['%', hexDigitChar (b / 16), hexDigitChar (b % 16)]

/-- UTF-8 byte sequence of a code point. -/
def utf8Bytes (n : Nat) : List Nat :=
  if n < 128 then [n]
  else if n < 2048 then [192 + n / 64, 128 + n % 64]
  else if n < 65536 then [224 + n / 4096, 128 + n / 64 % 64, 128 + n % 64]
  else [240 + n / 262144, 128 + n / 4096 % 64, 128 + n / 64 % 64, 128 + n % 64]

/-- JS `encodeURI` on one character: safe characters pass through, others
are percent-escaped as their UTF-8 bytes. -/
def encodeURIChar (c : Char) : List Char :=
  if isEncodeURISafe c then [c]
  else ((utf8Bytes c.toNat).map percentByte).flatten

/-- JS `encodeURI`. -/
def encodeURI (s : String) : String :=
  ⟨(s.data.map encodeURIChar).flatten⟩

/-! ## Node `path` primitives (POSIX) -/

/-- One pass of POSIX path normalization over the segments of a path:
empty and `.` segments are dropped, `..` pops the previous segment
(dropped at the root of an absolute path, kept leading for relative
paths). -/
def normSegsAux (isAbs : Bool) : List String → List String → List String
  | acc, [] => acc.reverse
  | acc, seg :: rest =>
    if seg = "" ∨ seg = "." then normSegsAux isAbs acc rest
    else if seg = ".." then
      match acc with
      | [] => if isAbs then normSegsAux isAbs [] rest else normSegsAux isAbs [".."] rest
      | t :: acc' =>
        if t = ".." then normSegsAux isAbs (seg :: acc) rest else normSegsAux isAbs acc' rest
    else normSegsAux isAbs (seg :: acc) rest

/-- Join character lists with a separator character. -/
def interChar (c : Char) : List (List Char) → List Char
  | [] => []
  | [s] => s
  | s :: rest => s ++ c :: interChar c rest

/-- Join strings with `/`. -/
def interSlash (ls : List String) : String :=
  ⟨interChar '/' (ls.map String.data)⟩

/-- Split a string at every `/`. -/
def splitSlash (s : String) : List String :=
  (splitChar '/' s.data).map (⟨·⟩)

/-- Node `path.join(...parts)` for POSIX paths: drop empty arguments, join
the rest with `/`, then normalize the result, preserving a leading `/` and
a trailing `/`. -/
def joinParts (parts : List String) : String :=
  let ps := parts.filter (· ≠ "")
  if ps.isEmpty then "."
  else
    let joined := interSlash ps
    let isAbs := jsStartsWith joined "/"
    let hasTrail := jsEndsWith joined "/"
    let body := interSlash (normSegsAux isAbs [] (splitSlash joined))
    let base := (if isAbs then "/" else "") ++ body
    let base := if base = "" then (if isAbs then "/" else ".") else base
    if hasTrail ∧ ¬ (jsEndsWith base "/" = true) then base ++ "/" else base

/-- Index of the last occurrence of a character, accumulator-based. -/
def lastIdxAux (c : Char) : Nat → List Char → Option Nat → Option Nat
  | _, [], acc => acc
  | i, x :: xs, acc => lastIdxAux c (i + 1) xs (if x = c then some i else acc)

/-- Index of the last occurrence of a character in a list, if any. -/
def lastIdxOf (c : Char) (cs : List Char) : Option Nat :=
  lastIdxAux c 0 cs none

/-- The basename of a POSIX path: everything after the last `/`. -/
def pathBasenameRaw (p : String) : String :=
  (splitSlash p).getLastD p

/-- Node `path.extname` (POSIX): the suffix of the basename from its last
dot, empty when there is no dot or the only dot is the leading one. -/
def pathExtname (p : String) : String :=
  let b := pathBasenameRaw p
  if b = "." ∨ b = ".." then ""
  else
    match lastIdxOf '.' b.data with
    | none => ""
    | some 0 => ""
    | some i => ⟨b.data.drop i⟩

/-- Node `path.dirname` (POSIX). -/
def pathDirname (p : String) : String :=
  let cs := p.data
  let trimmed := (cs.reverse.dropWhile (· = '/')).reverse
  if trimmed.isEmpty then (if cs.head? = some '/' then "/" else ".")
  else
    match lastIdxOf '/' trimmed with
    | none => "."
    | some 0 => "/"
    | some i => ⟨trimmed.take i⟩

/-- Normalized segment list of an absolute POSIX path. -/
def pathSegs (p : String) : List String :=
  normSegsAux true [] (splitSlash p)

/-- Length of the common prefix of two segment lists. -/
def commonPrefixLen : List String → List String → Nat
  | a :: as, b :: bs => if a = b then 1 + commonPrefixLen as bs else 0
  | _, _ => 0

/-- Node `path.relative(from, to)` for absolute POSIX paths: ascend out of
the segments of `from` past the common prefix, then descend into `to`. -/
def pathRelative (fromP toP : String) : String :=
  let f := pathSegs fromP
  let t := pathSegs toP
  let c := commonPrefixLen f t
  interSlash (List.replicate (f.length - c) ".." ++ t.drop c)

/-- Waves of a fixed size claimed from the head of a list, mirroring the
`for (let i = 0; i < xs.length; i += k) xs.slice(i, i + k)` loops of the
source; the fuel argument is the list length, enough for every `k ≥ 1`. -/
def chunksOfGo {α : Type} (k : Nat) : Nat → List α → List (List α)
  | 0, _ => []
  | _, [] => []
  | fuel + 1, l => l.take k :: chunksOfGo k fuel (l.drop k)

/-- `chunksOf k l` splits `l` into successive waves of `k` elements. -/
def chunksOf {α : Type} (k : Nat) (l : List α) : List (List α) :=
  chunksOfGo k l.length l

/-! ## Data model -/

/-- The fields of a WHATWG `URL` object that the source reads.  URL parsing
itself is a platform capability; the crawl model is parametrized over it. -/
structure Url where
  hostname : String
  host : String
  pathname : String
  origin : String
deriving Repr, DecidableEq

/-- What the HTML-parse capability exposes of a fetched page, in document
order: the byte length of the markup, the chosen attribute value of every
`link[href], script[src], img[src], source[src]` element, and the `href`
of every `a[href]` element. -/
structure PageData where
  htmlSize : Nat
  assetRefs : List String
  linkRefs : List String
deriving Repr, DecidableEq

/-- The external capabilities the crawler uses: `new URL(s)`,
`new URL(ref, base).href`, and the two transports.  The fetch capabilities
are indexed by attempt number so retry behaviour is observable. -/
structure Caps where
  parse : String → Option Url
  resolve : String → String → Option String
  fetchPage : String → Nat → Option PageData
  fetchAsset : String → Nat → Option Nat

/-! ## Constants (src/unnamed/part_000 lines 21-23) -/

def MAX_CONCURRENT_DOWNLOADS : Nat := 10

def CHUNK_SIZE : Nat := 15

def MAX_SIZE_MB : Nat := 500

/-- The size ceiling in bytes: `MAX_SIZE_MB * 1024 * 1024`. -/
def maxSizeBytes : Nat := MAX_SIZE_MB * 1024 * 1024

/-! ## Retry fetcher (src/unnamed/part_000 lines 229-255) -/

/-- One attempt of `downloadAsset`'s loop body: a transport success whose
body exceeds the size ceiling throws and is therefore indistinguishable
from a transport failure (lines 242-244). -/
def effAttempt (fetch : Nat → Option Nat) (i : Nat) : Option Nat :=
  match fetch i with
  | some size => if maxSizeBytes < size then none else some size
  | none => none

/-- The retry loop of `downloadAsset`: `remaining` attempts left, `i` the
current attempt index; a failure that is not the last attempt sleeps
`1000 * 2 ^ i` ms (line 251), recorded in the returned delay list. -/
def downloadAssetGo (fetch : Nat → Option Nat) : Nat → Nat → Option Nat × List Nat
  | 0, _ => (none, [])
  | remaining + 1, i =>
    match effAttempt fetch i with
    | some size => (some size, [])
    | none =>
      if remaining = 0 then (none, [])
      else
        let r := downloadAssetGo fetch remaining (i + 1)
        (r.1, 1000 * 2 ^ i :: r.2)

/-- `downloadAsset(url, filePath, retries = 3)`: up to three attempts;
returns the stored size on success, `none` when the final attempt fails,
together with the backoff delays slept. -/
def downloadAssetM (fetch : Nat → Option Nat) : Option Nat × List Nat :=
  downloadAssetGo fetch 3 0

/-- Page retrieval (line 133): one single `axios.get`, i.e. attempt `0` of
the transport, with no retry loop around it. -/
def fetchPageOnce (o : Nat → Option PageData) : Option PageData :=
  o 0

/-! ## Path mapper and URL validation (lines 257-282) -/

/-- `getLocalFilePath(url, baseUrl, tempDir)` (lines 257-270).  The
`baseUrl` argument is accepted but unused, exactly as in the source. -/
def getLocalFilePath (url : Url) (baseUrl tempDir : String) : String :=
  let localPath := joinParts [tempDir, decodeURIComponentS url.pathname]
  if jsEndsWith url.pathname "/" then
    joinParts [tempDir, url.pathname, "index.html"]
  else
    let extname := pathExtname url.pathname
    if extname = "" ∨ ¬ ([".html", ".htm"].contains (strLower extname) = true) then
      localPath ++ ".html"
    else
      localPath

/-- Asset storage path (lines 174-177): same-host assets mirror their URL
path under the working area, cross-host assets go under
`assets/<host>/...`. -/
def assetStoragePath (u : Url) (baseHost tempDir : String) : String :=
  if u.host = baseHost then joinParts [tempDir, u.pathname]
  else joinParts [tempDir, "assets", u.host, u.pathname]

/-- `isValidWebflowUrl` (lines 272-282): parse, then a case-sensitive
suffix test of the hostname against the two allowed suffixes; a parse
failure is caught and reported as invalid. -/
def isValidWebflowUrl (parse : String → Option Url) (url : String) : Bool :=
  match parse url with
  | none => false
  | some u => jsEndsWith u.hostname "webflow.io" || jsEndsWith u.hostname "webflow.com"

/-! ## Crawl engine model (src/unnamed/part_000 lines 37-227) -/

/-- The shared mutable state of one job.  `pageFetches` and `assetFetches`
log every invocation of the page transport and of `downloadAsset`;
`assetResults` logs, for every asset element that entered the download
loop, the pair (original attribute value, final attribute value). -/
structure CrawlState where
  visitedUrls : List String
  visitedAssets : List String
  urlQueue : List String
  pageFetches : List String
  assetFetches : List String
  assetResults : List (String × String)
deriving Repr, DecidableEq

/-- Asset reference absolutization (lines 153-161): keep values starting
with `http`, prepend `https:` to protocol-relative values, resolve the
rest against the page URL (a resolution failure skips the element); empty
attribute values are skipped as falsy (line 151). -/
def absolutizeAssetRef (resolve : String → String → Option String) (pageUrl ref : String) :
    Option String :=
  if ref = "" then none
  else if jsStartsWith ref "http" || jsStartsWith ref "//" then
    some (if jsStartsWith ref "//" then "https:" ++ ref else ref)
  else resolve ref pageUrl

/-- Full asset collection test (lines 148-164): absolutize, then drop any
URL containing the substring `data:` anywhere (line 163). -/
def resolveAssetRef (resolve : String → String → Option String) (pageUrl ref : String) :
    Option String :=
  match absolutizeAssetRef resolve pageUrl ref with
  | none => none
  | some a => if jsIncludes a "data:" then none else some a

/-- Processing of one collected asset element (lines 170-189): a URL
already in the visited-assets set is skipped with its attribute untouched;
otherwise it is claimed, parsed, fetched through the retry fetcher,
stored, and its attribute rewritten to the page-relative local path; a
parse or fetch failure leaves the attribute untouched and contributes zero
bytes. -/
def procAssetEl (caps : Caps) (baseHost tempDir pageDir : String) (st : CrawlState)
    (ra : String × String) : CrawlState × Nat :=
  let ref := ra.1
  let assetUrl := ra.2
  if assetUrl ∈ st.visitedAssets then
    ({ st with assetResults := st.assetResults ++ [(ref, ref)] }, 0)
  else
    let st := { st with visitedAssets := assetUrl :: st.visitedAssets }
    match caps.parse assetUrl with
    | none => ({ st with assetResults := st.assetResults ++ [(ref, ref)] }, 0)
    | some uo =>
      let assetPath := assetStoragePath uo baseHost tempDir
      let st := { st with assetFetches := st.assetFetches ++ [assetUrl] }
      match (downloadAssetM (caps.fetchAsset assetUrl)).1 with
      | none => ({ st with assetResults := st.assetResults ++ [(ref, ref)] }, 0)
      | some size =>
        ({ st with
            assetResults :=
              st.assetResults ++ [(ref, encodeURI (pathRelative pageDir assetPath))] },
          size)

/-- Processing of one hyperlink element (lines 195-217): skip falsy,
`mailto:`, `tel:` and pure-fragment hrefs; resolve, normalize, and for
same-origin targets enqueue the normalized URL when neither visited nor
queued, then rewrite the href to the relative local path (a path-mapper
parse failure after the enqueue skips only the rewrite, as the `try`
block does). -/
def procLinkEl (caps : Caps) (baseUrl tempDir pageDir pageUrl : String) (st : CrawlState)
    (href : String) : CrawlState × String :=
  if href = "" ∨ jsStartsWith href "mailto:" ∨ jsStartsWith href "tel:" ∨
      jsStartsWith href "#" then
    (st, href)
  else
    match caps.resolve href pageUrl with
    | none => (st, href)
    | some absoluteLink =>
      let normalizedLink := jsNormalize absoluteLink
      if jsStartsWith normalizedLink baseUrl then
        let st :=
          if normalizedLink ∈ st.visitedUrls ∨ normalizedLink ∈ st.urlQueue then st
          else { st with urlQueue := st.urlQueue ++ [normalizedLink] }
        match caps.parse normalizedLink with
        | none => (st, href)
        | some u =>
          (st, encodeURI (pathRelative pageDir (getLocalFilePath u baseUrl tempDir)))
      else (st, href)

/-- Sequential processing of one asset wave, accumulating the downloaded
byte sizes (lines 169-192). -/
def procAssetChunk (caps : Caps) (baseHost tempDir pageDir : String) :
    CrawlState × Nat → List (String × String) → CrawlState × Nat :=
  List.foldl (fun acc ra =>
    let r := procAssetEl caps baseHost tempDir pageDir acc.1 ra
    (r.1, acc.2 + r.2))

/-- `downloadPage(url, baseUrl, baseHost, tempDir, ...)` (lines 129-227):
fetch the markup (one transport attempt), collect asset references, fetch
them in waves of `MAX_CONCURRENT_DOWNLOADS`, then rewrite hyperlinks and
extend the frontier; returns the page's byte contribution (markup plus
newly downloaded asset bytes), zero on page-fetch failure. -/
def downloadPageM (caps : Caps) (baseUrl baseHost tempDir : String) (st : CrawlState)
    (url : String) : CrawlState × Nat :=
  let st := { st with pageFetches := st.pageFetches ++ [url] }
  match fetchPageOnce (caps.fetchPage url) with
  | none => (st, 0)
  | some page =>
    match caps.parse url with
    | none => (st, 0)
    | some pu =>
      let localFilePath := getLocalFilePath pu baseUrl tempDir
      let pageDir := pathDirname localFilePath
      let collected := page.assetRefs.filterMap
        (fun r => (resolveAssetRef caps.resolve url r).map (fun a => (r, a)))
      let waves := chunksOf MAX_CONCURRENT_DOWNLOADS collected
      let processed := waves.foldl (procAssetChunk caps baseHost tempDir pageDir) (st, 0)
      let stL := page.linkRefs.foldl
        (fun s href => (procLinkEl caps baseUrl tempDir pageDir url s href).1) processed.1
      (stL, page.htmlSize + processed.2)

/-- Outcome of the crawl loop: the frontier drained within budget, the
size ceiling was exceeded, or the step bound ran out (the source has no
such bound; a sufficiently large fuel reproduces any finite execution). -/
inductive CrawlOutcome where
  | completed : CrawlState → Nat → CrawlOutcome
  | failed : CrawlState → Nat → CrawlOutcome
  | outOfFuel : CrawlOutcome
deriving Repr, DecidableEq

/-- The state carried by a terminal outcome, if any. -/
def outcomeState : CrawlOutcome → Option CrawlState
  | .completed st _ => some st
  | .failed st _ => some st
  | .outOfFuel => none

/-- One wave of the engine (lines 63-76): each claimed URL not yet visited
is atomically marked visited and processed; the running total is checked
against the size ceiling after each page, failing the job as soon as it is
exceeded (`Sum.inr` is the thrown size error). -/
def runWave (caps : Caps) (baseUrl baseHost tempDir : String) :
    CrawlState → Nat → List String → (CrawlState × Nat) ⊕ (CrawlState × Nat)
  | st, total, [] => .inl (st, total)
  | st, total, u :: rest =>
    if u ∈ st.visitedUrls then runWave caps baseUrl baseHost tempDir st total rest
    else
      let st := { st with visitedUrls := u :: st.visitedUrls }
      let r := downloadPageM caps baseUrl baseHost tempDir st u
      let total := total + r.2
      if maxSizeBytes < total then .inr (r.1, total)
      else runWave caps baseUrl baseHost tempDir r.1 total rest

/-- The crawl loop (lines 62-77): while the frontier is nonempty, splice
the first `CHUNK_SIZE` URLs off its head and run them as one wave. -/
def crawlLoop (caps : Caps) (baseUrl baseHost tempDir : String) :
    Nat → CrawlState → Nat → CrawlOutcome
  | 0, _, _ => .outOfFuel
  | fuel + 1, st, total =>
    if st.urlQueue.isEmpty then .completed st total
    else
      let chunk := st.urlQueue.take CHUNK_SIZE
      let st := { st with urlQueue := st.urlQueue.drop CHUNK_SIZE }
      match runWave caps baseUrl baseHost tempDir st total chunk with
      | .inr p => .failed p.1 p.2
      | .inl p => crawlLoop caps baseUrl baseHost tempDir fuel p.1 p.2

/-- Initial job state (lines 56-58): empty visited sets and a frontier
holding exactly the target URL as submitted. -/
def initState (targetUrl : String) : CrawlState :=
  { visitedUrls := []
    visitedAssets := []
    urlQueue := [targetUrl]
    pageFetches := []
    assetFetches := []
    assetResults := [] }

/-- The HTTP response of the extraction endpoint. -/
inductive Response where
  | badRequest : Response
  | archive : CrawlState → Nat → Response
  | serverError : CrawlState → Nat → Response
  | indeterminate : Response
deriving Repr, DecidableEq

/-- Observable outcome of one `POST /api/extract` request: the response,
whether a working area was created, and the transport invocations made. -/
structure HandlerOutput where
  response : Response
  workAreaCreated : Bool
  pageFetches : List String
  assetFetches : List String
deriving Repr, DecidableEq

/-- The extraction handler (lines 37-127): validation happens first,
before the working directory is created and before any fetch; only a crawl
that drains the frontier within budget reaches the archive stream. -/
def extractHandler (caps : Caps) (tempDir : String) (fuel : Nat) (targetUrl : String) :
    HandlerOutput :=
  if isValidWebflowUrl caps.parse targetUrl then
    match caps.parse targetUrl with
    | some tu =>
      match crawlLoop caps tu.origin tu.host tempDir fuel (initState targetUrl) 0 with
      | .completed st total => ⟨.archive st total, true, st.pageFetches, st.assetFetches⟩
      | .failed st total => ⟨.serverError st total, true, st.pageFetches, st.assetFetches⟩
      | .outOfFuel => ⟨.indeterminate, true, [], []⟩
    | none => ⟨.badRequest, false, [], []⟩
  else ⟨.badRequest, false, [], []⟩

/-! ## Spec-side definitions (for refinement comparisons)

These two definitions follow the wording of the specification's Local Path
description, over the same path primitives, so they can be compared with
`getLocalFilePath` as translated from the source. -/

/-- The Local Path mapping as the spec claim words it: directory-style URLs
map to `index.html` under the mirrored directory; extensionless paths gain
an `.html` suffix; every other URL preserves its path under the working
area. -/
def specLocalPathClaimed (u : Url) (tempDir : String) : String :=
  if jsEndsWith u.pathname "/" then
    joinParts [tempDir, u.pathname, "index.html"]
  else if pathExtname u.pathname = "" then
    joinParts [tempDir, decodeURIComponentS u.pathname] ++ ".html"
  else
    joinParts [tempDir, decodeURIComponentS u.pathname]

/-- The Local Path mapping as the code actually behaves: directory-style
URLs map to `index.html`; every path whose extension is not `.html`/`.htm`
(case-insensitively), including extensionless ones, gains an `.html`
suffix; only `.html`/`.htm` paths are preserved. -/
def specLocalPathAmended (u : Url) (tempDir : String) : String :=
  if jsEndsWith u.pathname "/" then
    joinParts [tempDir, u.pathname, "index.html"]
  else if [".html", ".htm"].contains (strLower (pathExtname u.pathname)) = true then
    joinParts [tempDir, decodeURIComponentS u.pathname]
  else
    joinParts [tempDir, decodeURIComponentS u.pathname] ++ ".html"

/-! ## Invariants of the crawl state -/

/-- The asset half of the dedup invariant: the `downloadAsset` invocation
log has no duplicates and every logged URL has been claimed in the
visited-assets set. -/
def AssetInv (st : CrawlState) : Prop :=
  st.assetFetches.Nodup ∧ ∀ a ∈ st.assetFetches, a ∈ st.visitedAssets

/-- The page half of the dedup invariant. -/
def PageInv (st : CrawlState) : Prop :=
  st.pageFetches.Nodup ∧ ∀ u ∈ st.pageFetches, u ∈ st.visitedUrls

/-- What one step of the asset-localization phase may do to the state,
relative to a property `P` of the newly fetched asset URLs: the page-level
fields are untouched, the visited-assets set only grows, the asset dedup
invariant is preserved, and any new fetch-log entry satisfies `P`. -/
def AssetPhaseStep (P : String → Prop) (st st' : CrawlState) : Prop :=
  st'.visitedUrls = st.visitedUrls ∧
  st'.urlQueue = st.urlQueue ∧
  st'.pageFetches = st.pageFetches ∧
  (∀ a ∈ st.visitedAssets, a ∈ st'.visitedAssets) ∧
  (AssetInv st → AssetInv st') ∧
  (∀ a ∈ st'.assetFetches, a ∈ st.assetFetches ∨ P a)

/-! ## Concrete capabilities used as witnesses -/

/-- A one-page site with one stylesheet referenced twice. -/
def exCaps : Caps where
  parse := fun s =>
    if s = "https://s.webflow.io/" then
      some ⟨"s.webflow.io", "s.webflow.io", "/", "https://s.webflow.io"⟩
    else if s = "https://s.webflow.io/a.css" then
      some ⟨"s.webflow.io", "s.webflow.io", "/a.css", "https://s.webflow.io"⟩
    else none
  resolve := fun ref base =>
    if ref = "/a.css" ∧ base = "https://s.webflow.io/" then
      some "https://s.webflow.io/a.css"
    else none
  fetchPage := fun u i =>
    if u = "https://s.webflow.io/" ∧ i = 0 then some ⟨100, ["/a.css", "/a.css"], []⟩
    else none
  fetchAsset := fun u i => if i = 0 then some 50 else none

/-- The same site, but the page markup alone is 600 MB, over the ceiling. -/
def exCapsBig : Caps where
  parse := exCaps.parse
  resolve := exCaps.resolve
  fetchPage := fun u i =>
    if u = "https://s.webflow.io/" ∧ i = 0 then some ⟨629145600, [], []⟩ else none
  fetchAsset := exCaps.fetchAsset

/-- A parser for a host outside the allowed suffixes. -/
def exCapsEvil : Caps where
  parse := fun s =>
    if s = "https://evil.example.com/" then
      some ⟨"evil.example.com", "evil.example.com", "/", "https://evil.example.com"⟩
    else none
  resolve := fun _ _ => none
  fetchPage := fun _ _ => none
  fetchAsset := fun _ _ => none

/-- A site whose target URL carries a query string and whose page links
back to its own query-stripped URL, with two asset references that differ
only in their query strings. -/
def exCapsQuery : Caps where
  parse := fun s =>
    if s = "https://s.webflow.io/p?x=1" ∨ s = "https://s.webflow.io/p" then
      some ⟨"s.webflow.io", "s.webflow.io", "/p", "https://s.webflow.io"⟩
    else if s = "https://s.webflow.io/s.css?a" ∨ s = "https://s.webflow.io/s.css?b" then
      some ⟨"s.webflow.io", "s.webflow.io", "/s.css", "https://s.webflow.io"⟩
    else none
  resolve := fun ref base =>
    if ref = "/p" ∧ base = "https://s.webflow.io/p?x=1" then
      some "https://s.webflow.io/p"
    else if ref = "/s.css?a" ∧ base = "https://s.webflow.io/p?x=1" then
      some "https://s.webflow.io/s.css?a"
    else if ref = "/s.css?b" ∧ base = "https://s.webflow.io/p?x=1" then
      some "https://s.webflow.io/s.css?b"
    else none
  fetchPage := fun u i =>
    if u = "https://s.webflow.io/p?x=1" ∧ i = 0 then
      some ⟨100, ["/s.css?a", "/s.css?b"], ["/p"]⟩
    else if u = "https://s.webflow.io/p" ∧ i = 0 then some ⟨50, [], []⟩
    else none
  fetchAsset := fun u i => if i = 0 then some 10 else none

/-- A resolver producing an absolute URL that carries `data:` inside its
query string rather than as its scheme. -/
def exCapsData : Caps where
  parse := fun _ => none
  resolve := fun ref base =>
    if ref = "/i?u=data:x" ∧ base = "https://s.webflow.io/" then
      some "https://s.webflow.io/i?u=data:x"
    else none
  fetchPage := fun _ _ => none
  fetchAsset := fun _ _ => none

/-- An asset transport that fails its first attempt and succeeds after. -/
def flakyAsset (n : Nat) : Option Nat :=
  if n = 0 then none else some 7

/-- A page transport that fails its first attempt and succeeds after. -/
def flakyPage (n : Nat) : Option PageData :=
  if n = 0 then none else some ⟨7, [], []⟩

/-! ## Helper lemmas -/

/-- Every wave produced by `chunksOfGo` has at most `k` elements. -/
theorem chunksOfGo_length_le {α : Type} (k : Nat) :
    ∀ (fuel : Nat) (l c : List α), c ∈ chunksOfGo k fuel l → c.length ≤ k := by
  intro fuel
  induction fuel with
  | zero => intro l c h; simp [chunksOfGo] at h
  | succ n ih =>
    intro l c h
    cases l with
    | nil => simp [chunksOfGo] at h
    | cons x xs =>
      simp only [chunksOfGo, List.mem_cons] at h
      rcases h with h | h
      · subst h; exact List.length_take_le _ _
      · exact ih _ _ h

/-- Appending a fresh element preserves `Nodup`. -/
theorem nodup_snoc {α : Type} {l : List α} {a : α} (h : l.Nodup) (ha : a ∉ l) :
    (l ++ [a]).Nodup := by
  simp [List.nodup_append, h, ha]

/-- An asset URL that survives collection does not contain `data:`. -/
theorem resolveAssetRef_no_data (resolve : String → String → Option String)
    (p r a : String) (h : resolveAssetRef resolve p r = some a) :
    jsIncludes a "data:" = false := by
  unfold resolveAssetRef at h
  cases hab : absolutizeAssetRef resolve p r with
  | none => rw [hab] at h; cases h
  | some b =>
    rw [hab] at h
    try dsimp only at h
    by_cases hd : jsIncludes b "data:" = true
    · rw [if_pos hd] at h; cases h
    · rw [if_neg hd] at h
      injection h with h
      subst h
      exact Bool.not_eq_true _ ▸ hd

/-- Every pair in the collected asset list of a page has a `data:`-free
absolute URL. -/
theorem collected_no_data (resolve : String → String → Option String) (url : String)
    (refs : List String) :
    ∀ ra ∈ refs.filterMap
        (fun r => (resolveAssetRef resolve url r).map (fun a => (r, a))),
      jsIncludes ra.2 "data:" = false := by
  intro ra hra
  rw [List.mem_filterMap] at hra
  obtain ⟨r, hr, hmap⟩ := hra
  cases hres : resolveAssetRef resolve url r with
  | none => rw [hres] at hmap; cases hmap
  | some a =>
    rw [hres] at hmap
    injection hmap with hmap
    subst hmap
    exact resolveAssetRef_no_data resolve url r a hres

/-- Membership in a wave implies membership in the chunked list. -/
theorem chunksOfGo_mem_mem {α : Type} (k : Nat) :
    ∀ (fuel : Nat) (l c : List α) (a : α), c ∈ chunksOfGo k fuel l → a ∈ c → a ∈ l := by
  intro fuel
  induction fuel with
  | zero => intro l c a h; simp [chunksOfGo] at h
  | succ n ih =>
    intro l c a h ha
    cases l with
    | nil => simp [chunksOfGo] at h
    | cons x xs =>
      simp only [chunksOfGo, List.mem_cons] at h
      rcases h with h | h
      · subst h; exact List.mem_of_mem_take ha
      · exact List.mem_of_mem_drop (ih _ _ _ h ha)

/-- `AssetPhaseStep` is reflexive. -/
theorem assetPhaseStep_rfl (P : String → Prop) (st : CrawlState) : AssetPhaseStep P st st :=
  ⟨rfl, rfl, rfl, fun _ h => h, id, fun _ ha => Or.inl ha⟩

/-- `AssetPhaseStep` composes. -/
theorem assetPhaseStep_trans (P : String → Prop) {s₁ s₂ s₃ : CrawlState}
    (h₁ : AssetPhaseStep P s₁ s₂) (h₂ : AssetPhaseStep P s₂ s₃) : AssetPhaseStep P s₁ s₃ := by
  obtain ⟨a₁, a₂, a₃, a₄, a₅, a₆⟩ := h₁
  obtain ⟨b₁, b₂, b₃, b₄, b₅, b₆⟩ := h₂
  exact ⟨b₁.trans a₁, b₂.trans a₂, b₃.trans a₃, fun a ha => b₄ _ (a₄ _ ha),
    fun h => b₅ (a₅ h), fun a ha => (b₆ _ ha).elim (fun h => a₆ _ h) Or.inr⟩

/-- One asset element only mutates the state as `AssetPhaseStep` allows. -/
theorem procAssetEl_step (P : String → Prop) (caps : Caps) (bh td pd : String)
    (st : CrawlState) (ra : String × String) (hP : P ra.2) :
    AssetPhaseStep P st (procAssetEl caps bh td pd st ra).1 := by
  unfold procAssetEl
  by_cases hv : ra.2 ∈ st.visitedAssets
  · simp only [if_pos hv]
    exact ⟨rfl, rfl, rfl, fun _ h => h, id, fun _ ha => Or.inl ha⟩
  · simp only [if_neg hv]
    have hinv : AssetInv st →
        AssetInv { st with visitedAssets := ra.2 :: st.visitedAssets,
                           assetFetches := st.assetFetches ++ [ra.2] } := by
      intro h
      constructor
      · exact nodup_snoc h.1 (fun hm => hv (h.2 _ hm))
      · intro a ha
        rcases List.mem_append.mp ha with ha | ha
        · exact List.mem_cons_of_mem _ (h.2 _ ha)
        · simp only [List.mem_singleton] at ha
          subst ha
          exact List.mem_cons_self _ _
    have hnew : ∀ a ∈ st.assetFetches ++ [ra.2], a ∈ st.assetFetches ∨ P a := by
      intro a ha
      rcases List.mem_append.mp ha with ha | ha
      · exact Or.inl ha
      · simp only [List.mem_singleton] at ha
        subst ha
        exact Or.inr hP
    cases hp : caps.parse ra.2 with
    | none =>
      refine ⟨rfl, rfl, rfl, fun a ha => List.mem_cons_of_mem _ ha, fun h => ?_,
        fun a ha => Or.inl ha⟩
      exact ⟨h.1, fun a ha => List.mem_cons_of_mem _ (h.2 _ ha)⟩
    | some uo =>
      cases hd : (downloadAssetM (caps.fetchAsset ra.2)).1 with
      | none =>
        exact ⟨rfl, rfl, rfl, fun a ha => List.mem_cons_of_mem _ ha, hinv, hnew⟩
      | some size =>
        exact ⟨rfl, rfl, rfl, fun a ha => List.mem_cons_of_mem _ ha, hinv, hnew⟩

/-- A whole asset wave only mutates the state as `AssetPhaseStep` allows. -/
theorem procAssetChunk_step (P : String → Prop) (caps : Caps) (bh td pd : String) :
    ∀ (chunk : List (String × String)) (acc : CrawlState × Nat),
      (∀ ra ∈ chunk, P ra.2) →
      AssetPhaseStep P acc.1 (procAssetChunk caps bh td pd acc chunk).1 := by
  intro chunk
  induction chunk with
  | nil => intro acc h; exact assetPhaseStep_rfl P acc.1
  | cons ra rest ih =>
    intro acc h
    have h₁ := procAssetEl_step P caps bh td pd acc.1 ra (h ra (List.mem_cons_self _ _))
    have h₂ := ih ((procAssetEl caps bh td pd acc.1 ra).1,
        acc.2 + (procAssetEl caps bh td pd acc.1 ra).2)
      (fun x hx => h x (List.mem_cons_of_mem _ hx))
    exact assetPhaseStep_trans P h₁ h₂

/-- The fold over all asset waves only mutates the state as
`AssetPhaseStep` allows. -/
theorem wavesFold_step (P : String → Prop) (caps : Caps) (bh td pd : String) :
    ∀ (waves : List (List (String × String))) (acc : CrawlState × Nat),
      (∀ c ∈ waves, ∀ ra ∈ c, P ra.2) →
      AssetPhaseStep P acc.1 (waves.foldl (procAssetChunk caps bh td pd) acc).1 := by
  intro waves
  induction waves with
  | nil => intro acc h; exact assetPhaseStep_rfl P acc.1
  | cons c rest ih =>
    intro acc h
    have h₁ := procAssetChunk_step P caps bh td pd c acc (h c (List.mem_cons_self _ _))
    have h₂ := ih (procAssetChunk caps bh td pd acc c)
      (fun x hx => h x (List.mem_cons_of_mem _ hx))
    exact assetPhaseStep_trans P h₁ h₂

/-- One hyperlink element touches nothing but the frontier. -/
theorem procLinkEl_frame (caps : Caps) (b td pd pu : String) (st : CrawlState)
    (href : String) :
    (procLinkEl caps b td pd pu st href).1.visitedUrls = st.visitedUrls ∧
    (procLinkEl caps b td pd pu st href).1.visitedAssets = st.visitedAssets ∧
    (procLinkEl caps b td pd pu st href).1.pageFetches = st.pageFetches ∧
    (procLinkEl caps b td pd pu st href).1.assetFetches = st.assetFetches ∧
    (procLinkEl caps b td pd pu st href).1.assetResults = st.assetResults := by
  unfold procLinkEl
  dsimp only
  repeat' split
  all_goals exact ⟨rfl, rfl, rfl, rfl, rfl⟩

/-- The hyperlink fold touches nothing but the frontier. -/
theorem linksFold_frame (caps : Caps) (b td pd pu : String) :
    ∀ (refs : List String) (st : CrawlState),
      (refs.foldl (fun s href => (procLinkEl caps b td pd pu s href).1) st).visitedUrls =
          st.visitedUrls ∧
      (refs.foldl (fun s href => (procLinkEl caps b td pd pu s href).1) st).visitedAssets =
          st.visitedAssets ∧
      (refs.foldl (fun s href => (procLinkEl caps b td pd pu s href).1) st).pageFetches =
          st.pageFetches ∧
      (refs.foldl (fun s href => (procLinkEl caps b td pd pu s href).1) st).assetFetches =
          st.assetFetches ∧
      (refs.foldl (fun s href => (procLinkEl caps b td pd pu s href).1) st).assetResults =
          st.assetResults := by
  intro refs
  induction refs with
  | nil => intro st; exact ⟨rfl, rfl, rfl, rfl, rfl⟩
  | cons href rest ih =>
    intro st
    have h₁ := procLinkEl_frame caps b td pd pu st href
    have h₂ := ih (procLinkEl caps b td pd pu st href).1
    exact ⟨h₂.1.trans h₁.1, h₂.2.1.trans h₁.2.1, h₂.2.2.1.trans h₁.2.2.1,
      h₂.2.2.2.1.trans h₁.2.2.2.1, h₂.2.2.2.2.trans h₁.2.2.2.2⟩

/-- What one page's processing does to the state: the visited-pages set is
untouched, the page-fetch log is extended by exactly this URL, the
visited-assets set only grows, the asset dedup invariant is preserved, and
every new asset-fetch-log entry is `data:`-free. -/
theorem downloadPageM_step (caps : Caps) (b bh td : String) (st : CrawlState) (u : String) :
    (downloadPageM caps b bh td st u).1.visitedUrls = st.visitedUrls ∧
    (downloadPageM caps b bh td st u).1.pageFetches = st.pageFetches ++ [u] ∧
    (∀ a ∈ st.visitedAssets, a ∈ (downloadPageM caps b bh td st u).1.visitedAssets) ∧
    (AssetInv st → AssetInv (downloadPageM caps b bh td st u).1) ∧
    (∀ a ∈ (downloadPageM caps b bh td st u).1.assetFetches,
        a ∈ st.assetFetches ∨ jsIncludes a "data:" = false) := by
  unfold downloadPageM
  cases hf : fetchPageOnce (caps.fetchPage u) with
  | none =>
    exact ⟨rfl, rfl, fun _ ha => ha, fun h => h, fun _ ha => Or.inl ha⟩
  | some page =>
    cases hp : caps.parse u with
    | none =>
      exact ⟨rfl, rfl, fun _ ha => ha, fun h => h, fun _ ha => Or.inl ha⟩
    | some pu =>
      dsimp only
      set st₁ : CrawlState := { st with pageFetches := st.pageFetches ++ [u] } with hst₁
      set pd := pathDirname (getLocalFilePath pu b td) with hpd
      set collected := page.assetRefs.filterMap
        (fun r => (resolveAssetRef caps.resolve u r).map (fun a => (r, a))) with hcol
      have hP : ∀ c ∈ chunksOf MAX_CONCURRENT_DOWNLOADS collected, ∀ ra ∈ c,
          jsIncludes ra.2 "data:" = false := by
        intro c hc ra hra
        exact collected_no_data caps.resolve u page.assetRefs ra
          (chunksOfGo_mem_mem MAX_CONCURRENT_DOWNLOADS collected.length collected c ra hc hra)
      have hw := wavesFold_step (fun a => jsIncludes a "data:" = false) caps bh td pd
        (chunksOf MAX_CONCURRENT_DOWNLOADS collected) (st₁, 0) hP
      set processed := (chunksOf MAX_CONCURRENT_DOWNLOADS collected).foldl
        (procAssetChunk caps bh td pd) (st₁, 0) with hproc
      have hl := linksFold_frame caps b td pd u page.linkRefs processed.1
      obtain ⟨w₁, w₂, w₃, w₄, w₅, w₆⟩ := hw
      refine ⟨?_, ?_, ?_, ?_, ?_⟩
      · exact hl.1.trans w₁
      · exact hl.2.2.1.trans w₃
      · intro a ha
        rw [hl.2.1]
        exact w₄ a ha
      · intro h
        have hA₁ : AssetInv st₁ := h
        have hA₂ : AssetInv processed.1 := w₅ hA₁
        exact ⟨hl.2.2.2.1 ▸ hA₂.1, fun a ha => by
          rw [hl.2.1]
          exact hA₂.2 a (hl.2.2.2.1 ▸ ha)⟩
      · intro a ha
        rw [hl.2.2.2.1] at ha
        exact w₆ a ha

/-- The running byte total never decreases across a wave. -/
theorem runWave_mono (caps : Caps) (b bh td : String) :
    ∀ (chunk : List String) (st : CrawlState) (total : Nat) (p : CrawlState × Nat),
      (runWave caps b bh td st total chunk = .inl p ∨
       runWave caps b bh td st total chunk = .inr p) → total ≤ p.2 := by
  intro chunk
  induction chunk with
  | nil =>
    intro st total p h
    rcases h with h | h
    · simp only [runWave] at h
      injection h with h
      subst h
      exact Nat.le_refl total
    · simp only [runWave] at h
      cases h
  | cons u rest ih =>
    intro st total p h
    simp only [runWave] at h
    by_cases hv : u ∈ st.visitedUrls
    · rw [if_pos hv] at h
      exact ih st total p h
    · rw [if_neg hv] at h
      try dsimp only at h
      by_cases hsz : maxSizeBytes < total +
          (downloadPageM caps b bh td { st with visitedUrls := u :: st.visitedUrls } u).2
      · rw [if_pos hsz] at h
        rcases h with h | h
        · cases h
        · injection h with h
          subst h
          exact Nat.le_add_right _ _
      · rw [if_neg hsz] at h
        exact le_trans (Nat.le_add_right _ _) (ih _ _ p h)

/-- One wave preserves both dedup invariants, and respects the size
ceiling: an in-budget wave stays in budget, a thrown wave has exceeded
it. -/
theorem runWave_inv (caps : Caps) (b bh td : String) :
    ∀ (chunk : List String) (st : CrawlState) (total : Nat),
      PageInv st → AssetInv st →
      (∀ p, runWave caps b bh td st total chunk = .inl p →
          PageInv p.1 ∧ AssetInv p.1 ∧ (total ≤ maxSizeBytes → p.2 ≤ maxSizeBytes)) ∧
      (∀ p, runWave caps b bh td st total chunk = .inr p →
          PageInv p.1 ∧ AssetInv p.1 ∧ maxSizeBytes < p.2) := by
  intro chunk
  induction chunk with
  | nil =>
    intro st total hP hA
    constructor
    · intro p hp
      simp only [runWave] at hp
      injection hp with hp
      subst hp
      exact ⟨hP, hA, fun h => h⟩
    · intro p hp
      simp only [runWave] at hp
      cases hp
  | cons u rest ih =>
    intro st total hP hA
    by_cases hv : u ∈ st.visitedUrls
    · constructor
      · intro p hp
        simp only [runWave, if_pos hv] at hp
        exact (ih st total hP hA).1 p hp
      · intro p hp
        simp only [runWave, if_pos hv] at hp
        exact (ih st total hP hA).2 p hp
    · have hP₁ : PageInv { st with visitedUrls := u :: st.visitedUrls } :=
        ⟨hP.1, fun x hx => List.mem_cons_of_mem _ (hP.2 x hx)⟩
      have hA₁ : AssetInv { st with visitedUrls := u :: st.visitedUrls } := hA
      have hd := downloadPageM_step caps b bh td
        { st with visitedUrls := u :: st.visitedUrls } u
      have hP₂ : PageInv
          (downloadPageM caps b bh td { st with visitedUrls := u :: st.visitedUrls } u).1 := by
        constructor
        · rw [hd.2.1]
          exact nodup_snoc hP.1 (fun hm => hv (hP.2 _ hm))
        · intro x hx
          rw [hd.2.1] at hx
          rw [hd.1]
          rcases List.mem_append.mp hx with hx | hx
          · exact List.mem_cons_of_mem _ (hP.2 _ hx)
          · simp only [List.mem_singleton] at hx
            subst hx
            exact List.mem_cons_self _ _
      have hA₂ : AssetInv
          (downloadPageM caps b bh td { st with visitedUrls := u :: st.visitedUrls } u).1 :=
        hd.2.2.2.1 hA₁
      by_cases hsz : maxSizeBytes < total +
          (downloadPageM caps b bh td { st with visitedUrls := u :: st.visitedUrls } u).2
      · constructor
        · intro p hp
          simp only [runWave, if_neg hv] at hp
          try dsimp only at hp
          rw [if_pos hsz] at hp
          cases hp
        · intro p hp
          simp only [runWave, if_neg hv] at hp
          try dsimp only at hp
          rw [if_pos hsz] at hp
          injection hp with hp
          subst hp
          exact ⟨hP₂, hA₂, hsz⟩
      · have hrec := ih
          (downloadPageM caps b bh td { st with visitedUrls := u :: st.visitedUrls } u).1
          (total +
            (downloadPageM caps b bh td { st with visitedUrls := u :: st.visitedUrls } u).2)
          hP₂ hA₂
        constructor
        · intro p hp
          simp only [runWave, if_neg hv] at hp
          try dsimp only at hp
          rw [if_neg hsz] at hp
          have h := hrec.1 p hp
          exact ⟨h.1, h.2.1, fun _ => h.2.2 (Nat.le_of_not_lt hsz)⟩
        · intro p hp
          simp only [runWave, if_neg hv] at hp
          try dsimp only at hp
          rw [if_neg hsz] at hp
          exact hrec.2 p hp

/-- The crawl loop preserves both dedup invariants; a completed crawl
stayed within the size ceiling and a failed crawl exceeded it. -/
theorem crawlLoop_inv (caps : Caps) (b bh td : String) :
    ∀ (fuel : Nat) (st : CrawlState) (total : Nat),
      PageInv st → AssetInv st → total ≤ maxSizeBytes →
      (∀ st' total', crawlLoop caps b bh td fuel st total = .completed st' total' →
          PageInv st' ∧ AssetInv st' ∧ total' ≤ maxSizeBytes) ∧
      (∀ st' total', crawlLoop caps b bh td fuel st total = .failed st' total' →
          PageInv st' ∧ AssetInv st' ∧ maxSizeBytes < total') := by
  intro fuel
  induction fuel with
  | zero =>
    intro st total hP hA hle
    constructor <;> intro st' total' h <;> simp [crawlLoop] at h
  | succ n ih =>
    intro st total hP hA hle
    by_cases hq : st.urlQueue.isEmpty = true
    · constructor
      · intro st' total' h
        simp only [crawlLoop, if_pos hq] at h
        injection h with h1 h2
        subst h1
        subst h2
        exact ⟨hP, hA, hle⟩
      · intro st' total' h
        simp only [crawlLoop, if_pos hq] at h
        cases h
    · have hw := runWave_inv caps b bh td (st.urlQueue.take CHUNK_SIZE)
        { st with urlQueue := st.urlQueue.drop CHUNK_SIZE } total hP hA
      cases hrw : runWave caps b bh td { st with urlQueue := st.urlQueue.drop CHUNK_SIZE }
          total (st.urlQueue.take CHUNK_SIZE) with
      | inl p =>
        have h1 := hw.1 p hrw
        have hrec := ih p.1 p.2 h1.1 h1.2.1 (h1.2.2 hle)
        constructor
        · intro st' total' h
          simp only [crawlLoop, if_neg hq] at h
          try dsimp only at h
          rw [hrw] at h
          exact hrec.1 st' total' h
        · intro st' total' h
          simp only [crawlLoop, if_neg hq] at h
          try dsimp only at h
          rw [hrw] at h
          exact hrec.2 st' total' h
      | inr p =>
        have h1 := hw.2 p hrw
        constructor
        · intro st' total' h
          simp only [crawlLoop, if_neg hq] at h
          try dsimp only at h
          rw [hrw] at h
          cases h
        · intro st' total' h
          simp only [crawlLoop, if_neg hq] at h
          try dsimp only at h
          rw [hrw] at h
          injection h with h2 h3
          subst h2
          subst h3
          exact h1

/-! ## Claims -/

/-- Claim C7: the Path Mapper is a pure deterministic function of
(URL, job origin, working-area root): two calls with identical inputs give
identical outputs.  (Its embedding as total Lean functions over those
arguments is the formal counterpart of "no I/O, no side effects".) -/
theorem c7_path_mapper_pure (u₁ u₂ : Url) (b₁ b₂ t₁ t₂ h₁ h₂ : String)
    (hu : u₁ = u₂) (hb : b₁ = b₂) (ht : t₁ = t₂) (hh : h₁ = h₂) :
    getLocalFilePath u₁ b₁ t₁ = getLocalFilePath u₂ b₂ t₂ ∧
    assetStoragePath u₁ h₁ t₁ = assetStoragePath u₂ h₂ t₂ := by
  subst hu; subst hb; subst ht; subst hh
  exact ⟨rfl, rfl⟩

/-- Witness for C7 at a concrete URL and working area. -/
theorem c7_path_mapper_pure_witness :
    getLocalFilePath ⟨"s.webflow.io", "s.webflow.io", "/", "https://s.webflow.io"⟩
        "https://s.webflow.io" "/tmp/w" =
      getLocalFilePath ⟨"s.webflow.io", "s.webflow.io", "/", "https://s.webflow.io"⟩
        "https://s.webflow.io" "/tmp/w" ∧
    assetStoragePath ⟨"s.webflow.io", "s.webflow.io", "/", "https://s.webflow.io"⟩
        "s.webflow.io" "/tmp/w" =
      assetStoragePath ⟨"s.webflow.io", "s.webflow.io", "/", "https://s.webflow.io"⟩
        "s.webflow.io" "/tmp/w" :=
  c7_path_mapper_pure _ _ _ _ _ _ _ _ rfl rfl rfl rfl

/-- Claim C10: the frontier starts with the target URL exactly as
submitted, and for a target carrying a query or fragment that entry
differs from the normalized key a hyperlink rediscovery would use. -/
theorem c10_frontier_unnormalized :
    (∀ t : String, (initState t).urlQueue = [t]) ∧
    jsNormalize "https://site.webflow.io/page?id=1#top" = "https://site.webflow.io/page" ∧
    "https://site.webflow.io/page?id=1#top" ≠
      jsNormalize "https://site.webflow.io/page?id=1#top" :=
  ⟨fun _ => rfl, by decide, by decide⟩

/-- Counterexample to claim C8: a page with `CHUNK_SIZE` (15) collected
assets is downloaded in waves of 10 and 5 — the asset wave size is
`MAX_CONCURRENT_DOWNLOADS`, which is not the page-level wave size. -/
theorem c8_counterexample :
    chunksOf MAX_CONCURRENT_DOWNLOADS (List.range CHUNK_SIZE) =
      [[0, 1, 2, 3, 4, 5, 6, 7, 8, 9], [10, 11, 12, 13, 14]] ∧
    MAX_CONCURRENT_DOWNLOADS ≠ CHUNK_SIZE := by decide

/-- Claim C8 as amended: a page's assets are fetched in bounded waves of
`MAX_CONCURRENT_DOWNLOADS = 10` URLs (the wave structure used by
`downloadPage`), which is smaller than the page-level wave size
`CHUNK_SIZE = 15`, not equal to it. -/
theorem c8_asset_wave_size (l c : List (String × String))
    (hc : c ∈ chunksOf MAX_CONCURRENT_DOWNLOADS l) :
    c.length ≤ MAX_CONCURRENT_DOWNLOADS ∧
    MAX_CONCURRENT_DOWNLOADS = 10 ∧ CHUNK_SIZE = 15 ∧
    MAX_CONCURRENT_DOWNLOADS < CHUNK_SIZE :=
  ⟨chunksOfGo_length_le _ _ _ _ hc, rfl, rfl, by decide⟩

/-- Witness for C8 at a concrete asset list. -/
theorem c8_asset_wave_size_witness :
    (List.replicate 10 (("r", "a") : String × String)).length ≤ MAX_CONCURRENT_DOWNLOADS ∧
    MAX_CONCURRENT_DOWNLOADS = 10 ∧ CHUNK_SIZE = 15 ∧
    MAX_CONCURRENT_DOWNLOADS < CHUNK_SIZE :=
  c8_asset_wave_size (List.replicate 15 ("r", "a")) _ (by decide)

/-- Counterexample to claim C4: a resource that fails its first transport
attempt and would succeed on the second is recovered by `downloadAsset`'s
retry loop but lost by the single-attempt page retrieval — page fetches do
not go through the Retry Fetcher. -/
theorem c4_counterexample :
    fetchPageOnce flakyPage = none ∧
    flakyPage 1 = some ⟨7, [], []⟩ ∧
    downloadAssetM flakyAsset = (some 7, [1000]) := by decide

/-- Claim C4 as amended: only asset retrieval goes through the retry
logic — up to 3 attempts with delays 1000·2^i ms (1000 then 2000) between
attempts, earlier failures silent and only the final failure surfaced —
while page retrieval performs exactly one transport attempt. -/
theorem c4_retry_asset_only (fetch : Nat → Option Nat) :
    (∀ s, effAttempt fetch 0 = some s → downloadAssetM fetch = (some s, [])) ∧
    (∀ s, effAttempt fetch 0 = none → effAttempt fetch 1 = some s →
        downloadAssetM fetch = (some s, [1000])) ∧
    (∀ s, effAttempt fetch 0 = none → effAttempt fetch 1 = none →
        effAttempt fetch 2 = some s → downloadAssetM fetch = (some s, [1000, 2000])) ∧
    (effAttempt fetch 0 = none → effAttempt fetch 1 = none → effAttempt fetch 2 = none →
        downloadAssetM fetch = (none, [1000, 2000])) ∧
    (∀ o : Nat → Option PageData, fetchPageOnce o = o 0) := by
  refine ⟨?_, ?_, ?_, ?_, fun o => rfl⟩
  · intro s h
    simp [downloadAssetM, downloadAssetGo, h]
  · intro s h0 h1
    norm_num [downloadAssetM, downloadAssetGo, h0, h1]
  · intro s h0 h1 h2
    norm_num [downloadAssetM, downloadAssetGo, h0, h1, h2]
  · intro h0 h1 h2
    norm_num [downloadAssetM, downloadAssetGo, h0, h1, h2]

/-- Witness for C4: the flaky transport is recovered on its second
attempt with one 1000 ms backoff. -/
theorem c4_retry_asset_only_witness :
    downloadAssetM flakyAsset = (some 7, [1000]) :=
  (c4_retry_asset_only flakyAsset).2.1 7 (by decide) (by decide)

/-- Counterexample to claim C5: the URL path `/app.js` is neither
directory-style nor extensionless, so per the claim it should be preserved
under the working area, but `getLocalFilePath` appends `.html` to it. -/
theorem c5_counterexample :
    getLocalFilePath ⟨"s.webflow.io", "s.webflow.io", "/app.js", "https://s.webflow.io"⟩
        "https://s.webflow.io" "/tmp/w" = "/tmp/w/app.js.html" ∧
    specLocalPathClaimed ⟨"s.webflow.io", "s.webflow.io", "/app.js", "https://s.webflow.io"⟩
        "/tmp/w" = "/tmp/w/app.js" ∧
    ("/tmp/w/app.js.html" : String) ≠ "/tmp/w/app.js" := by decide

/-- Claim C5 as amended: directory-style URLs map to `index.html` under
the mirrored directory; paths whose extension is not `.html`/`.htm`
(case-insensitively), including extensionless ones, gain an `.html`
suffix; only `.html`/`.htm` paths preserve their (decoded) path; asset
files are stored at their URL path verbatim under the working area, with
cross-origin assets under `assets/<host>/...`. -/
theorem c5_local_path_characterization (u : Url) (baseUrl tempDir baseHost : String) :
    getLocalFilePath u baseUrl tempDir = specLocalPathAmended u tempDir ∧
    (u.host = baseHost →
      assetStoragePath u baseHost tempDir = joinParts [tempDir, u.pathname]) ∧
    (u.host ≠ baseHost →
      assetStoragePath u baseHost tempDir =
        joinParts [tempDir, "assets", u.host, u.pathname]) := by
  refine ⟨?_, ?_, ?_⟩
  · unfold getLocalFilePath specLocalPathAmended
    by_cases hE : jsEndsWith u.pathname "/" = true
    · simp [hE]
    · have hcon : ([".html", ".htm"].contains (strLower (pathExtname u.pathname)) = true) ↔
          (strLower (pathExtname u.pathname) = ".html" ∨
            strLower (pathExtname u.pathname) = ".htm") := by
        simp
      simp only [if_neg hE]
      by_cases h1 : strLower (pathExtname u.pathname) = ".html" ∨
          strLower (pathExtname u.pathname) = ".htm"
      · have hx : ¬ (pathExtname u.pathname = "") := by
          intro h
          rw [h] at h1
          revert h1
          decide
        have hcond : ¬ (pathExtname u.pathname = "" ∨
            ¬ ([".html", ".htm"].contains (strLower (pathExtname u.pathname)) = true)) := by
          push_neg
          exact ⟨hx, hcon.mpr h1⟩
        rw [if_neg hcond, if_pos (hcon.mpr h1)]
      · rw [if_pos (Or.inr (fun hc => h1 (hcon.mp hc))),
          if_neg (fun hc => h1 (hcon.mp hc))]
  · intro h; unfold assetStoragePath; simp [h]
  · intro h; unfold assetStoragePath; simp [h]

/-- Witness for C5 at a same-host and a cross-host asset URL. -/
theorem c5_local_path_characterization_witness :
    assetStoragePath ⟨"s.webflow.io", "s.webflow.io", "/a.css", "https://s.webflow.io"⟩
        "s.webflow.io" "/tmp/w" = joinParts ["/tmp/w", "/a.css"] ∧
    assetStoragePath ⟨"cdn.x.com", "cdn.x.com", "/lib.js", "https://cdn.x.com"⟩
        "s.webflow.io" "/tmp/w" = joinParts ["/tmp/w", "assets", "cdn.x.com", "/lib.js"] :=
  ⟨(c5_local_path_characterization
      ⟨"s.webflow.io", "s.webflow.io", "/a.css", "https://s.webflow.io"⟩
      "https://s.webflow.io" "/tmp/w" "s.webflow.io").2.1 rfl,
   (c5_local_path_characterization
      ⟨"cdn.x.com", "cdn.x.com", "/lib.js", "https://cdn.x.com"⟩
      "https://s.webflow.io" "/tmp/w" "s.webflow.io").2.2 (by decide)⟩

/-- Counterexample to claim C1: the dedup keys are exact strings, not
normalized URLs, so a query-bearing target and its query-stripped
hyperlink rediscovery are both fetched as pages — two fetch attempts for
one normalized URL — and two asset references differing only in their
query strings are both fetched, again sharing one normalized URL. -/
theorem c1_counterexample :
    (outcomeState (crawlLoop exCapsQuery "https://s.webflow.io" "s.webflow.io" "/tmp/w" 4
        (initState "https://s.webflow.io/p?x=1") 0)).map CrawlState.pageFetches =
      some ["https://s.webflow.io/p?x=1", "https://s.webflow.io/p"] ∧
    (outcomeState (crawlLoop exCapsQuery "https://s.webflow.io" "s.webflow.io" "/tmp/w" 4
        (initState "https://s.webflow.io/p?x=1") 0)).map CrawlState.assetFetches =
      some ["https://s.webflow.io/s.css?a", "https://s.webflow.io/s.css?b"] ∧
    jsNormalize "https://s.webflow.io/p?x=1" = jsNormalize "https://s.webflow.io/p" ∧
    jsNormalize "https://s.webflow.io/s.css?a" = jsNormalize "https://s.webflow.io/s.css?b" ∧
    ("https://s.webflow.io/p?x=1" : String) ≠ "https://s.webflow.io/p" ∧
    ("https://s.webflow.io/s.css?a" : String) ≠ "https://s.webflow.io/s.css?b" := by decide

/-- Claim C1 as amended: within one job no exact URL string is ever
fetched twice, for pages and assets alike — the page-transport log and
the `downloadAsset` invocation log of any terminal crawl state are
duplicate-free, for every web, resolver and transport behaviour.
Identity is the exact string key used by the visited sets (hyperlink
rediscoveries are query/fragment-stripped before keying, but the initial
target is enqueued verbatim and asset URLs keep their query), so two
distinct strings sharing one normalized URL may each be fetched once;
the sequential model realizes the synchronous check-and-insert of the
event loop, under which rediscoveries of the same key collapse to a
single fetch. -/
theorem c1_no_duplicate_fetches (caps : Caps) (b bh td target : String) (fuel : Nat)
    (st' : CrawlState) (total' : Nat)
    (h : crawlLoop caps b bh td fuel (initState target) 0 = .completed st' total' ∨
         crawlLoop caps b bh td fuel (initState target) 0 = .failed st' total') :
    st'.pageFetches.Nodup ∧ st'.assetFetches.Nodup := by
  have hP : PageInv (initState target) :=
    ⟨List.nodup_nil, fun u hu => absurd hu (List.not_mem_nil u)⟩
  have hA : AssetInv (initState target) :=
    ⟨List.nodup_nil, fun a ha => absurd ha (List.not_mem_nil a)⟩
  have hc := crawlLoop_inv caps b bh td fuel (initState target) 0 hP hA (Nat.zero_le _)
  rcases h with h | h
  · exact ⟨(hc.1 st' total' h).1.1, (hc.1 st' total' h).2.1.1⟩
  · exact ⟨(hc.2 st' total' h).1.1, (hc.2 st' total' h).2.1.1⟩

/-- Witness for C1: the one-page example crawl completes with
duplicate-free fetch logs even though the stylesheet is referenced
twice. -/
theorem c1_no_duplicate_fetches_witness :
    (CrawlState.mk ["https://s.webflow.io/"] ["https://s.webflow.io/a.css"] []
        ["https://s.webflow.io/"] ["https://s.webflow.io/a.css"]
        [("/a.css", "a.css"), ("/a.css", "/a.css")]).pageFetches.Nodup ∧
    (CrawlState.mk ["https://s.webflow.io/"] ["https://s.webflow.io/a.css"] []
        ["https://s.webflow.io/"] ["https://s.webflow.io/a.css"]
        [("/a.css", "a.css"), ("/a.css", "/a.css")]).assetFetches.Nodup :=
  c1_no_duplicate_fetches exCaps "https://s.webflow.io" "s.webflow.io" "/tmp/w"
    "https://s.webflow.io/" 3 _ 150 (Or.inl (by decide))

/-- Claim C2: the running byte total is nondecreasing across processing,
a crawl that completes stayed at or under the ceiling, a crawl that
failed exceeded it, and at the handler level a size failure yields the
error response — never the archive — while a delivered archive's total is
within the ceiling.  (The code checks the ceiling after every page inside
the wave, which subsumes the after-each-wave check the spec describes.) -/
theorem c2_size_ceiling (caps : Caps) (b bh td tempDir target : String) (fuel : Nat)
    (st' : CrawlState) (total' : Nat) :
    (crawlLoop caps b bh td fuel (initState target) 0 = .completed st' total' →
        total' ≤ maxSizeBytes) ∧
    (crawlLoop caps b bh td fuel (initState target) 0 = .failed st' total' →
        maxSizeBytes < total') ∧
    (∀ (st : CrawlState) (total : Nat) (chunk : List String) (p : CrawlState × Nat),
        (runWave caps b bh td st total chunk = .inl p ∨
         runWave caps b bh td st total chunk = .inr p) → total ≤ p.2) ∧
    (∀ stH totalH,
        (extractHandler caps tempDir fuel target).response = .archive stH totalH →
        totalH ≤ maxSizeBytes) ∧
    (∀ stH totalH,
        (extractHandler caps tempDir fuel target).response = .serverError stH totalH →
        maxSizeBytes < totalH) := by
  have hP : PageInv (initState target) :=
    ⟨List.nodup_nil, fun u hu => absurd hu (List.not_mem_nil u)⟩
  have hA : AssetInv (initState target) :=
    ⟨List.nodup_nil, fun a ha => absurd ha (List.not_mem_nil a)⟩
  refine ⟨?_, ?_, ?_, ?_, ?_⟩
  · intro h
    exact ((crawlLoop_inv caps b bh td fuel (initState target) 0 hP hA
      (Nat.zero_le _)).1 st' total' h).2.2
  · intro h
    exact ((crawlLoop_inv caps b bh td fuel (initState target) 0 hP hA
      (Nat.zero_le _)).2 st' total' h).2.2
  · intro st total chunk p h
    exact runWave_mono caps b bh td chunk st total p h
  · intro stH totalH h
    unfold extractHandler at h
    by_cases hv : isValidWebflowUrl caps.parse target = true
    · rw [if_pos hv] at h
      cases hp : caps.parse target with
      | none => rw [hp] at h; dsimp only at h; cases h
      | some tu =>
        rw [hp] at h
        dsimp only at h
        cases hcr : crawlLoop caps tu.origin tu.host tempDir fuel (initState target) 0 with
        | completed stc totc =>
          rw [hcr] at h
          dsimp only at h
          injection h with h1 h2
          subst h1
          subst h2
          exact ((crawlLoop_inv caps tu.origin tu.host tempDir fuel (initState target) 0
            hP hA (Nat.zero_le _)).1 _ _ hcr).2.2
        | failed stc totc => rw [hcr] at h; dsimp only at h; cases h
        | outOfFuel => rw [hcr] at h; dsimp only at h; cases h
    · rw [if_neg hv] at h
      dsimp only at h
      cases h
  · intro stH totalH h
    unfold extractHandler at h
    by_cases hv : isValidWebflowUrl caps.parse target = true
    · rw [if_pos hv] at h
      cases hp : caps.parse target with
      | none => rw [hp] at h; dsimp only at h; cases h
      | some tu =>
        rw [hp] at h
        dsimp only at h
        cases hcr : crawlLoop caps tu.origin tu.host tempDir fuel (initState target) 0 with
        | completed stc totc => rw [hcr] at h; dsimp only at h; cases h
        | failed stc totc =>
          rw [hcr] at h
          dsimp only at h
          injection h with h1 h2
          subst h1
          subst h2
          exact ((crawlLoop_inv caps tu.origin tu.host tempDir fuel (initState target) 0
            hP hA (Nat.zero_le _)).2 _ _ hcr).2.2
        | outOfFuel => rw [hcr] at h; dsimp only at h; cases h
    · rw [if_neg hv] at h
      dsimp only at h
      cases h

/-- Witness for C2: the 150-byte example crawl completes within the
ceiling, and the 600 MB page fails over it. -/
theorem c2_size_ceiling_witness :
    ((150 : Nat) ≤ maxSizeBytes) ∧ (maxSizeBytes < 629145600) :=
  ⟨(c2_size_ceiling exCaps "https://s.webflow.io" "s.webflow.io" "/tmp/w" "/tmp/w"
      "https://s.webflow.io/" 3
      (CrawlState.mk ["https://s.webflow.io/"] ["https://s.webflow.io/a.css"] []
        ["https://s.webflow.io/"] ["https://s.webflow.io/a.css"]
        [("/a.css", "a.css"), ("/a.css", "/a.css")]) 150).1 (by decide),
   (c2_size_ceiling exCapsBig "https://s.webflow.io" "s.webflow.io" "/tmp/w" "/tmp/w"
      "https://s.webflow.io/" 3
      (CrawlState.mk ["https://s.webflow.io/"] [] [] ["https://s.webflow.io/"] [] [])
      629145600).2.1 (by decide)⟩

/-- Counterexample to claim C3: in the example crawl the stylesheet is
referenced twice on the same page; the second, rediscovering element
keeps its original attribute value `/a.css` — it is not rewritten to the
Path-Mapper relative path `a.css` the claim promises — even though the
asset is fetched only once. -/
theorem c3_counterexample :
    (outcomeState (crawlLoop exCaps "https://s.webflow.io" "s.webflow.io" "/tmp/w" 3
        (initState "https://s.webflow.io/") 0)).map CrawlState.assetResults =
      some [("/a.css", "a.css"), ("/a.css", "/a.css")] ∧
    (outcomeState (crawlLoop exCaps "https://s.webflow.io" "s.webflow.io" "/tmp/w" 3
        (initState "https://s.webflow.io/") 0)).map CrawlState.assetFetches =
      some ["https://s.webflow.io/a.css"] ∧
    encodeURI (pathRelative "/tmp/w"
      (assetStoragePath ⟨"s.webflow.io", "s.webflow.io", "/a.css", "https://s.webflow.io"⟩
        "s.webflow.io" "/tmp/w")) = "a.css" ∧
    ("/a.css" : String) ≠ "a.css" := by decide

/-- Claim C3 as amended: an asset URL already claimed by the
visited-assets set is never fetched a second time, and the rediscovering
element's reference is left unchanged at its original value — it is not
rewritten to the Path-Mapper path. -/
theorem c3_dedup_no_rewrite (caps : Caps) (bh td pd : String) (st : CrawlState)
    (ref abs : String) (h : abs ∈ st.visitedAssets) :
    (procAssetEl caps bh td pd st (ref, abs)).1.assetFetches = st.assetFetches ∧
    (procAssetEl caps bh td pd st (ref, abs)).1.visitedAssets = st.visitedAssets ∧
    (procAssetEl caps bh td pd st (ref, abs)).1.assetResults =
      st.assetResults ++ [(ref, ref)] ∧
    (procAssetEl caps bh td pd st (ref, abs)).2 = 0 := by
  unfold procAssetEl
  dsimp only
  rw [if_pos h]
  exact ⟨rfl, rfl, rfl, rfl⟩

/-- Witness for C3 at a state that has already claimed the asset. -/
theorem c3_dedup_no_rewrite_witness :
    (procAssetEl exCaps "s.webflow.io" "/tmp/w" "/tmp/w"
        (CrawlState.mk [] ["https://s.webflow.io/a.css"] [] [] [] [])
        ("/a.css", "https://s.webflow.io/a.css")).1.assetFetches = [] ∧
    (procAssetEl exCaps "s.webflow.io" "/tmp/w" "/tmp/w"
        (CrawlState.mk [] ["https://s.webflow.io/a.css"] [] [] [] [])
        ("/a.css", "https://s.webflow.io/a.css")).1.visitedAssets =
      ["https://s.webflow.io/a.css"] ∧
    (procAssetEl exCaps "s.webflow.io" "/tmp/w" "/tmp/w"
        (CrawlState.mk [] ["https://s.webflow.io/a.css"] [] [] [] [])
        ("/a.css", "https://s.webflow.io/a.css")).1.assetResults =
      [] ++ [("/a.css", "/a.css")] ∧
    (procAssetEl exCaps "s.webflow.io" "/tmp/w" "/tmp/w"
        (CrawlState.mk [] ["https://s.webflow.io/a.css"] [] [] [] [])
        ("/a.css", "https://s.webflow.io/a.css")).2 = 0 :=
  c3_dedup_no_rewrite exCaps "s.webflow.io" "/tmp/w" "/tmp/w"
    (CrawlState.mk [] ["https://s.webflow.io/a.css"] [] [] [] [])
    "/a.css" "https://s.webflow.io/a.css" (by decide)

/-- Claim C6: a target URL that fails to parse, or whose hostname does
not end (case-sensitively) in one of the two allowed suffixes, is
rejected synchronously — no working area is created and no fetch is
performed — while any URL whose hostname does end in an allowed suffix
passes validation. -/
theorem c6_url_validation (caps : Caps) (tempDir : String) (fuel : Nat) (url : String) :
    ((caps.parse url = none ∨
        (∃ u, caps.parse url = some u ∧ jsEndsWith u.hostname "webflow.io" = false ∧
          jsEndsWith u.hostname "webflow.com" = false)) →
      extractHandler caps tempDir fuel url = ⟨.badRequest, false, [], []⟩) ∧
    (∀ u, caps.parse url = some u →
      (jsEndsWith u.hostname "webflow.io" = true ∨
        jsEndsWith u.hostname "webflow.com" = true) →
      isValidWebflowUrl caps.parse url = true) := by
  constructor
  · intro h
    have hv : isValidWebflowUrl caps.parse url = false := by
      unfold isValidWebflowUrl
      rcases h with h | ⟨u, hu, h1, h2⟩
      · rw [h]
      · rw [hu]
        dsimp only
        rw [h1, h2]
        rfl
    unfold extractHandler
    rw [if_neg (by rw [hv]; exact Bool.false_ne_true)]
  · intro u hu h
    unfold isValidWebflowUrl
    rw [hu]
    dsimp only
    rcases h with h | h
    · rw [h]
      rfl
    · rw [h]
      simp

/-- Witness for C6: the disallowed host is rejected with no work started
and the allowed host passes validation. -/
theorem c6_url_validation_witness :
    extractHandler exCapsEvil "/tmp/w" 3 "https://evil.example.com/" =
      ⟨.badRequest, false, [], []⟩ ∧
    isValidWebflowUrl exCaps.parse "https://s.webflow.io/" = true :=
  ⟨(c6_url_validation exCapsEvil "/tmp/w" 3 "https://evil.example.com/").1
      (Or.inr ⟨⟨"evil.example.com", "evil.example.com", "/", "https://evil.example.com"⟩,
        by decide, by decide, by decide⟩),
   (c6_url_validation exCaps "/tmp/w" 3 "https://s.webflow.io/").2
      ⟨"s.webflow.io", "s.webflow.io", "/", "https://s.webflow.io"⟩
      (by decide) (Or.inl (by decide))⟩

/-- Claim C9: asset rejection is by substring, not by scheme — any
discovered reference whose resolved absolute URL contains `data:`
anywhere (for instance inside a query parameter) is dropped from
collection, so it is neither fetched nor rewritten and its attribute
keeps its original value; correspondingly, every URL ever handed to the
asset downloader is `data:`-free. -/
theorem c9_data_substring_skip (caps : Caps) (b bh td : String) (st : CrawlState)
    (u pageUrl ref abs : String)
    (h : absolutizeAssetRef caps.resolve pageUrl ref = some abs)
    (hd : jsIncludes abs "data:" = true) :
    resolveAssetRef caps.resolve pageUrl ref = none ∧
    (∀ a ∈ (downloadPageM caps b bh td st u).1.assetFetches,
        a ∉ st.assetFetches → jsIncludes a "data:" = false) := by
  constructor
  · unfold resolveAssetRef
    rw [h]
    dsimp only
    rw [if_pos hd]
  · intro a ha hnew
    rcases (downloadPageM_step caps b bh td st u).2.2.2.2 a ha with h' | h'
    · exact absurd h' hnew
    · exact h'

/-- Witness for C9: a reference resolving to an URL with `data:` only in
its query string is dropped from collection. -/
theorem c9_data_substring_skip_witness :
    resolveAssetRef exCapsData.resolve "https://s.webflow.io/" "/i?u=data:x" = none :=
  (c9_data_substring_skip exCapsData "b" "bh" "/tmp/w" (initState "x") "u"
    "https://s.webflow.io/" "/i?u=data:x" "https://s.webflow.io/i?u=data:x"
    (by decide) (by decide)).1

end ExtractApi
